import Mathlib

/-!
Verification of the EGA execution-qc-parsing scripts.

The repository consists of four Python scripts (report_checker.py,
report_parser.py, report_flagger/report_flagger.py,
error_parser/error_parser.py) that extract quality-control metrics from
sequencing QC artifacts.  This file gives a shallow embedding of the
metric-extraction and decision core of those scripts and proves, or
refutes, the specification claims about them.

Bytes are modelled as natural numbers below 256, byte strings as
`List Nat`, and Python float arithmetic on the extracted metrics as
exact rational arithmetic (`Rat`); all comparisons in the source are
between small decimal values for which `Rat` is faithful.
-/

set_option maxRecDepth 20000

namespace QC

/-! ### Byte-level helpers -/

/-- Little-endian byte encoding of a natural number with a fixed width
(extra high bits are truncated, as in the 64-bit length field of MD5). -/
def toLE : Nat → Nat → List Nat
  | 0, _ => []
  | n + 1, x => (x % 256) :: toLE n (x / 256)

/-- Little-endian byte decoding of a 32-bit word. -/
def fromLE : List Nat → Nat
  | [] => 0
  | b :: bs => b % 256 + 256 * fromLE bs

theorem toLE_length (n x : Nat) : (toLE n x).length = n := by
  induction n generalizing x with
  | zero => rfl
  | succ n ih => simp [toLE, ih]

/-- Split a list into chunks of size `n`; `fuel` bounds the recursion and
is always called with at least the length of the list. -/
def chunksOf (fuel n : Nat) (l : List Nat) : List (List Nat) :=
  match fuel, l with
  | 0, _ => []
  | _, [] => []
  | f + 1, l => l.take n :: chunksOf f n (l.drop n)

/-! ### MD5

Executable MD5, needed because both report_parser._evp_bytes_to_key and
error_parser.evp_bytes_to_key derive AES key material from iterated MD5
digests.  The implementation follows RFC 1321 and is checked below
against the standard test vectors for the empty message and "abc". -/

/-- The 64 MD5 sine-derived round constants of RFC 1321, packed
little-endian into one natural number, 32 bits per constant. -/
def md5KTab : Nat := 0xeb86d3912ad7d2bbbd3af235f7537e824e0811a1a3014314fe2ce6e06fa87e4f85845dd1ffeff47d8f0ccc92655b59c3fc93a039ab9423a7432aff97f4292244c4ac56651fa27cf8e6db99e5d9d4d03904881d05d4ef3085eaa127fa289b7ec6bebfbc70f6bb4b604bdecfa9a4beea44fde5380c6d9d61228771f681fffa39428d2a4c8a676f02d9fcefa3f8a9e3e905455a14edf4d50d87c33707d621e1cde6e7d3fbc8d8a1e68102441453d62f105de9b6c7aa265e5a51c040b340f61e256249b40821a679438efd9871936b901122895cd7beffff5bb18b44f7af698098d8fd469501a83046134787c62af57c0fafc1bdceee242070dbe8c7b756d76aa478

def md5K (i : Nat) : Nat := (md5KTab >>> (32 * i)) &&& 4294967295

/-- The 64 per-round left-rotation amounts of RFC 1321, packed
little-endian into one natural number, 8 bits per amount. -/
def md5STab : Nat := 0x150f0a06150f0a06150f0a06150f0a0617100b0417100b0417100b0417100b04140e0905140e0905140e0905140e090516110c0716110c0716110c0716110c07

def md5S (i : Nat) : Nat := (md5STab >>> (8 * i)) &&& 255

def rotl32 (x n : Nat) : Nat :=
  ((x <<< n) ||| (x >>> (32 - n))) % 4294967296

def md5F (i b c d : Nat) : Nat :=
  if i < 16 then (b &&& c) ||| ((b ^^^ 4294967295) &&& d)
  else if i < 32 then (d &&& b) ||| ((d ^^^ 4294967295) &&& c)
  else if i < 48 then b ^^^ c ^^^ d
  else c ^^^ (b ||| (d ^^^ 4294967295))

def md5G (i : Nat) : Nat :=
  if i < 16 then i
  else if i < 32 then (5 * i + 1) % 16
  else if i < 48 then (3 * i + 5) % 16
  else (7 * i) % 16

def md5Step (m : Nat → Nat) (st : Nat × Nat × Nat × Nat) (i : Nat) :
    Nat × Nat × Nat × Nat :=
  match st with
  | (a, b, c, d) =>
    let f := (md5F i b c d + a + md5K i + m (md5G i)) % 4294967296
    (d, (b + rotl32 f (md5S i)) % 4294967296, b, c)

def md5Chunk (st : Nat × Nat × Nat × Nat) (chunk : List Nat) :
    Nat × Nat × Nat × Nat :=
  let m := fun j => fromLE ((chunk.drop (4 * j)).take 4)
  match st, (List.range 64).foldl (md5Step m) st with
  | (a, b, c, d), (a2, b2, c2, d2) =>
    ((a + a2) % 4294967296, (b + b2) % 4294967296,
     (c + c2) % 4294967296, (d + d2) % 4294967296)

def md5Pad (msg : List Nat) : List Nat :=
  let l := msg.length
  let k := (119 - l % 64) % 64
  msg ++ [128] ++ List.replicate k 0 ++ toLE 8 (8 * l)

def md5 (msg : List Nat) : List Nat :=
  let padded := md5Pad msg
  match (chunksOf (padded.length + 1) 64 padded).foldl md5Chunk
      (0x67452301, 0xefcdab89, 0x98badcfe, 0x10325476) with
  | (a, b, c, d) => toLE 4 a ++ toLE 4 b ++ toLE 4 c ++ toLE 4 d

theorem md5_length (msg : List Nat) : (md5 msg).length = 16 := by
  unfold md5
  obtain ⟨a, b, c, d⟩ :=
    (chunksOf ((md5Pad msg).length + 1) 64 (md5Pad msg)).foldl md5Chunk
      (0x67452301, 0xefcdab89, 0x98badcfe, 0x10325476)
  simp [toLE_length]

/-- RFC 1321 test vector: MD5 of the empty message. -/
theorem md5_vector_empty :
    md5 [] = [0xd4, 0x1d, 0x8c, 0xd9, 0x8f, 0x00, 0xb2, 0x04,
              0xe9, 0x80, 0x09, 0x98, 0xec, 0xf8, 0x42, 0x7e] := by
  decide

/-- RFC 1321 test vector: MD5 of "abc". -/
theorem md5_vector_abc :
    md5 [97, 98, 99] = [0x90, 0x01, 0x50, 0x98, 0x3c, 0xd2, 0x4f, 0xb0,
                        0xd6, 0x96, 0x3f, 0x7d, 0x28, 0xe1, 0x7f, 0x72] := by
  decide

/-! ### AES-256 and CBC mode

Executable AES-256, modelling the `cryptography` library calls in
decrypt_stats_file (`algorithms.AES` with `modes.CBC`).  The S-box and
its inverse are the FIPS-197 tables, packed into natural numbers; they
are checked below to be mutually inverse on every byte, and the cipher
is checked against the FIPS-197 appendix C.3 AES-256 test vector. -/

def xtime (a : Nat) : Nat :=
  ((a <<< 1) ^^^ (if 128 <= a then 0x1b else 0)) % 256

def gmulAux : Nat -> Nat -> Nat -> Nat -> Nat
  | 0, _, _, acc => acc
  | f + 1, a, b, acc =>
    if b = 0 then acc
    else gmulAux f (xtime a) (b / 2) (if b % 2 = 1 then acc ^^^ a else acc)

/-- Multiplication in GF(2^8) with the AES polynomial. -/
def gmul (a b : Nat) : Nat := gmulAux 8 a b 0

/-- The FIPS-197 S-box table, packed little-endian into one natural
number, 8 bits per entry: entry i is bits [8i, 8i+8). -/
def sboxTab : Nat := 0x16bb54b00f2d99416842e6bf0d89a18cdf2855cee9871e9b948ed9691198f8e19e1dc186b95735610ef6034866b53e708a8bbd4b1f74dde8c6b4a61c2e2578ba08ae7a65eaf4566ca94ed58d6d37c8e779e4959162acd3c25c2406490a3a32e0db0b5ede14b8ee4688902a22dc4f816073195d643d7ea7c41744975fec130ccdd2f3ff1021dab6bcf5389d928f40a351a89f3c507f02f94585334d43fbaaefd0cf584c4a39becb6a5bb1fc20ed00d153842fe329b3d63b52a05a6e1b1a2c830975b227ebe28012079a059618c323c7041531d871f1e5a534ccf73f362693fdb7c072a49cafa2d4adf04759fa7dc982ca76abd7fe2b670130c56f6bf27b777c63

/-- The FIPS-197 inverse S-box table, packed the same way. -/
def invSboxTab : Nat := 0x7d0c2155631469e126d677ba7e042b17619953833cbbebc8b0f52aae4d3be0a0ef9cc9939f7ae52d0d4ab519a97f51605fec8027591012b131c7078833a8dd1ff45acd78fec0db9a2079d2c64b3e56fc1bbe18aa0e62b76f89c5291d711af1476edf751ce837f9e28535ade72274ac9673e6b4f0cecff297eadc674f4111913a6b8a130103bdafc1020f3fca8f1e2cd00645b3b80558e4f70ad3bc8c00abd890849d8da75746155edab9edfd5048706c92b6655dcc5ca4d41698688664f6f87225d18b6d49a25b76b224d92866a12e084ec3fa420b954cee3d23c2a632947b54cbe9dec444438e3487ff2f9b8239e37cfbd7f3819ea340bf38a53630d56a0952

def sbox (a : Nat) : Nat := (sboxTab >>> (8 * a)) &&& 255

def invSbox (s : Nat) : Nat := (invSboxTab >>> (8 * s)) &&& 255

/-- FIPS-197 example value sbox(0x53) = 0xed, sbox(0) = 0x63, and the
two tables invert each other on the whole byte range. -/
theorem sbox_spot_checks :
    sbox 0x53 = 0xed ∧ sbox 0 = 0x63 ∧
    (∀ x < 256, invSbox (sbox x) = x ∧ sbox (invSbox x) = x) := by
  decide

def xorBytes (a b : List Nat) : List Nat := a.zipWith (· ^^^ ·) b

def subWord (w : List Nat) : List Nat := w.map sbox

def rotWord (w : List Nat) : List Nat := w.drop 1 ++ w.take 1

def rcon : List Nat := [0x01, 0x02, 0x04, 0x08, 0x10, 0x20, 0x40]

def expandStep (w : List (List Nat)) (i : Nat) : List (List Nat) :=
  let prev := w.getD (i - 1) []
  let temp :=
    if i % 8 = 0 then
      xorBytes (subWord (rotWord prev)) [rcon.getD (i / 8 - 1) 0, 0, 0, 0]
    else if i % 8 = 4 then subWord prev
    else prev
  w ++ [xorBytes (w.getD (i - 8) []) temp]

/-- AES-256 key expansion: 15 round keys of 16 bytes each. -/
def keyExpansion (key : List Nat) : List (List Nat) :=
  let w0 := (List.range 8).map (fun i => (key.drop (4 * i)).take 4)
  let ws := (List.range 52).foldl (fun w j => expandStep w (j + 8)) w0
  (List.range 15).map (fun r => ((ws.drop (4 * r)).take 4).flatten)

def subBytes (st : List Nat) : List Nat := st.map sbox

def invSubBytes (st : List Nat) : List Nat := st.map invSbox

def shiftRows (s : List Nat) : List Nat :=
  [s.getD 0 0, s.getD 5 0, s.getD 10 0, s.getD 15 0,
   s.getD 4 0, s.getD 9 0, s.getD 14 0, s.getD 3 0,
   s.getD 8 0, s.getD 13 0, s.getD 2 0, s.getD 7 0,
   s.getD 12 0, s.getD 1 0, s.getD 6 0, s.getD 11 0]

def invShiftRows (s : List Nat) : List Nat :=
  [s.getD 0 0, s.getD 13 0, s.getD 10 0, s.getD 7 0,
   s.getD 4 0, s.getD 1 0, s.getD 14 0, s.getD 11 0,
   s.getD 8 0, s.getD 5 0, s.getD 2 0, s.getD 15 0,
   s.getD 12 0, s.getD 9 0, s.getD 6 0, s.getD 3 0]

def mixCol (c : List Nat) : List Nat :=
  match c with
  | [a0, a1, a2, a3] =>
    [gmul 2 a0 ^^^ gmul 3 a1 ^^^ a2 ^^^ a3,
     a0 ^^^ gmul 2 a1 ^^^ gmul 3 a2 ^^^ a3,
     a0 ^^^ a1 ^^^ gmul 2 a2 ^^^ gmul 3 a3,
     gmul 3 a0 ^^^ a1 ^^^ a2 ^^^ gmul 2 a3]
  | _ => c

def invMixCol (c : List Nat) : List Nat :=
  match c with
  | [a0, a1, a2, a3] =>
    [gmul 14 a0 ^^^ gmul 11 a1 ^^^ gmul 13 a2 ^^^ gmul 9 a3,
     gmul 9 a0 ^^^ gmul 14 a1 ^^^ gmul 11 a2 ^^^ gmul 13 a3,
     gmul 13 a0 ^^^ gmul 9 a1 ^^^ gmul 14 a2 ^^^ gmul 11 a3,
     gmul 11 a0 ^^^ gmul 13 a1 ^^^ gmul 9 a2 ^^^ gmul 14 a3]
  | _ => c

def mixColumns (s : List Nat) : List Nat :=
  mixCol (s.take 4) ++ mixCol ((s.drop 4).take 4) ++
    mixCol ((s.drop 8).take 4) ++ mixCol ((s.drop 12).take 4)

def invMixColumns (s : List Nat) : List Nat :=
  invMixCol (s.take 4) ++ invMixCol ((s.drop 4).take 4) ++
    invMixCol ((s.drop 8).take 4) ++ invMixCol ((s.drop 12).take 4)

def addRoundKey (st rk : List Nat) : List Nat := xorBytes st rk

def aesEncBlock (rks : List (List Nat)) (blk : List Nat) : List Nat :=
  let st0 := addRoundKey blk (rks.getD 0 [])
  let stMid := (List.range 13).foldl
    (fun st i =>
      addRoundKey (mixColumns (shiftRows (subBytes st))) (rks.getD (i + 1) []))
    st0
  addRoundKey (shiftRows (subBytes stMid)) (rks.getD 14 [])

def aesDecBlock (rks : List (List Nat)) (blk : List Nat) : List Nat :=
  let st0 := addRoundKey blk (rks.getD 14 [])
  let stMid := (List.range 13).foldl
    (fun st i =>
      invMixColumns (addRoundKey (invSubBytes (invShiftRows st))
        (rks.getD (13 - i) [])))
    st0
  addRoundKey (invSubBytes (invShiftRows stMid)) (rks.getD 0 [])

def fipsKey : List Nat :=
  [0x00, 0x01, 0x02, 0x03, 0x04, 0x05, 0x06, 0x07,
   0x08, 0x09, 0x0a, 0x0b, 0x0c, 0x0d, 0x0e, 0x0f,
   0x10, 0x11, 0x12, 0x13, 0x14, 0x15, 0x16, 0x17,
   0x18, 0x19, 0x1a, 0x1b, 0x1c, 0x1d, 0x1e, 0x1f]

def fipsPlain : List Nat :=
  [0x00, 0x11, 0x22, 0x33, 0x44, 0x55, 0x66, 0x77,
   0x88, 0x99, 0xaa, 0xbb, 0xcc, 0xdd, 0xee, 0xff]

def fipsCipher : List Nat :=
  [0x8e, 0xa2, 0xb7, 0xca, 0x51, 0x67, 0x45, 0xbf,
   0xea, 0xfc, 0x49, 0x90, 0x4b, 0x49, 0x60, 0x89]

set_option maxHeartbeats 4000000 in
/-- FIPS-197 appendix C.3 AES-256 test vector, in both directions. -/
theorem aes256_fips_vector :
    aesEncBlock (keyExpansion fipsKey) fipsPlain = fipsCipher ∧
    aesDecBlock (keyExpansion fipsKey) fipsCipher = fipsPlain := by
  decide

def cbcEncChunks (rks : List (List Nat)) (iv : List Nat) :
    List (List Nat) → List (List Nat)
  | [] => []
  | b :: bs =>
    let c := aesEncBlock rks (xorBytes iv b)
    c :: cbcEncChunks rks c bs

def cbcDecChunks (rks : List (List Nat)) (iv : List Nat) :
    List (List Nat) → List (List Nat)
  | [] => []
  | c :: cs => xorBytes (aesDecBlock rks c) iv :: cbcDecChunks rks c cs

def cbcEncrypt (key iv data : List Nat) : List Nat :=
  (cbcEncChunks (keyExpansion key) iv
    (chunksOf (data.length + 1) 16 data)).flatten

def cbcDecrypt (key iv data : List Nat) : List Nat :=
  (cbcDecChunks (keyExpansion key) iv
    (chunksOf (data.length + 1) 16 data)).flatten

/-! ### Base64

Executable base64, modelling `base64.b64decode` in decrypt_stats_file
(and, for the round-trip claim, the encoding side of the external
OpenSSL pipeline). -/

def b64Char (i : Nat) : Nat :=
  if i < 26 then 65 + i
  else if i < 52 then 97 + (i - 26)
  else if i < 62 then 48 + (i - 52)
  else if i = 62 then 43 else 47

def b64Val (c : Nat) : Option Nat :=
  if 65 ≤ c ∧ c ≤ 90 then some (c - 65)
  else if 97 ≤ c ∧ c ≤ 122 then some (c - 97 + 26)
  else if 48 ≤ c ∧ c ≤ 57 then some (c - 48 + 52)
  else if c = 43 then some 62
  else if c = 47 then some 63
  else none

def b64EncodeAux : Nat → List Nat → List Nat
  | 0, _ => []
  | _, [] => []
  | _, [b0] =>
    let n := b0 * 65536
    [b64Char (n / 262144), b64Char (n / 4096 % 64), 61, 61]
  | _, [b0, b1] =>
    let n := b0 * 65536 + b1 * 256
    [b64Char (n / 262144), b64Char (n / 4096 % 64), b64Char (n / 64 % 64), 61]
  | f + 1, b0 :: b1 :: b2 :: rest =>
    let n := b0 * 65536 + b1 * 256 + b2
    b64Char (n / 262144) :: b64Char (n / 4096 % 64) ::
      b64Char (n / 64 % 64) :: b64Char (n % 64) :: b64EncodeAux f rest

def b64encode (l : List Nat) : List Nat := b64EncodeAux (l.length + 1) l

def b64DecodeAux : Nat → List Nat → Option (List Nat)
  | 0, _ => some []
  | _, [] => some []
  | f + 1, c0 :: c1 :: c2 :: c3 :: rest => do
    let v0 ← b64Val c0
    let v1 ← b64Val c1
    if c2 = 61 ∧ c3 = 61 ∧ rest = [] then
      some [v0 * 4 + v1 / 16]
    else do
      let v2 ← b64Val c2
      if c3 = 61 ∧ rest = [] then
        some [v0 * 4 + v1 / 16, v1 % 16 * 16 + v2 / 4]
      else do
        let v3 ← b64Val c3
        let tail ← b64DecodeAux f rest
        some ((v0 * 4 + v1 / 16) :: (v1 % 16 * 16 + v2 / 4) ::
          (v2 % 4 * 64 + v3) :: tail)
  | _, _ => none

def b64decode (l : List Nat) : Option (List Nat) :=
  b64DecodeAux (l.length + 1) l

theorem b64_spot_check :
    b64encode [77, 97, 110] = [84, 87, 70, 117] ∧
    b64decode [84, 87, 70, 117] = some [77, 97, 110] := by
  decide

/-! ### The two EVP_BytesToKey implementations

report_parser._evp_bytes_to_key keeps only the previous digest `d` and
hashes `d + pwd + salt` each round; error_parser.evp_bytes_to_key hashes
`dtot + password + salt` where `dtot` is the whole accumulated digest
stream.  Both loops run until the accumulated stream reaches
`klen + ivlen` bytes; each round appends a 16-byte MD5 digest, so a fuel
of `klen + ivlen` always suffices. -/

/-- Loop of report_parser._evp_bytes_to_key: `d` is the previous digest,
`dtot` the accumulated stream. -/
def evpAuxRP (fuel : Nat) (pwd salt : List Nat) (need : Nat)
    (d dtot : List Nat) : List Nat :=
  match fuel with
  | 0 => dtot
  | f + 1 =>
    if dtot.length < need then
      let d2 := md5 (d ++ pwd ++ salt)
      evpAuxRP f pwd salt need d2 (dtot ++ d2)
    else dtot

/-- Shallow embedding of report_parser._evp_bytes_to_key. -/
def evpBytesToKeyRP (pwd salt : List Nat) (klen ivlen : Nat) :
    List Nat × List Nat :=
  let dtot := evpAuxRP (klen + ivlen) pwd salt (klen + ivlen) [] []
  (dtot.take klen, (dtot.drop klen).take ivlen)

/-- Loop of error_parser.evp_bytes_to_key: each round hashes the whole
accumulated stream `dtot` followed by the password and salt. -/
def evpAuxEP (fuel : Nat) (pwd salt : List Nat) (need : Nat)
    (dtot : List Nat) : List Nat :=
  match fuel with
  | 0 => dtot
  | f + 1 =>
    if dtot.length < need then
      evpAuxEP f pwd salt need (dtot ++ md5 (dtot ++ pwd ++ salt))
    else dtot

/-- Shallow embedding of error_parser.evp_bytes_to_key. -/
def evpBytesToKeyEP (pwd salt : List Nat) (klen ivlen : Nat) :
    List Nat × List Nat :=
  let dtot := evpAuxEP (klen + ivlen) pwd salt (klen + ivlen) []
  (dtot.take klen, (dtot.drop klen).take ivlen)

/-- Modelled from the spec: the chain of digests of the iterative-MD5
key-derivation scheme, "repeatedly hash (previous digest, password,
salt) with MD5, starting with an empty previous digest". -/
def kdfDigestChain (pwd salt : List Nat) : Nat → List Nat
  | 0 => md5 (pwd ++ salt)
  | n + 1 => md5 (kdfDigestChain pwd salt n ++ pwd ++ salt)

/-- Modelled from the spec: the concatenated digest stream of the scheme,
"concatenating digests until at least 48 bytes are produced"; MD5 digests
are 16 bytes, so exactly three digests are needed. -/
def kdfSpecStream (pwd salt : List Nat) : List Nat :=
  kdfDigestChain pwd salt 0 ++ kdfDigestChain pwd salt 1 ++
    kdfDigestChain pwd salt 2

/-! ### decrypt_stats_file

The gzip decompression step (`gzip.GzipFile(...).read()`) is third-party
library code, so it enters the embedding as a function parameter
`gunzip`; `none` models a decompression failure (which the source lets
escape as an exception).  The overall result is `Option`: `none` models
the exceptions raised by decrypt_stats_file (missing Salted__ header,
empty decrypted buffer). -/

/-- The bytes of the ASCII magic header "Salted__". -/
def saltedMagic : List Nat := [83, 97, 108, 116, 101, 100, 95, 95]

/-- The PKCS7-stripping step `padded[:-padded[-1]]` of
decrypt_stats_file, with Python slice semantics: a pad byte of 0 yields
the empty slice `padded[:0]`, and no check that the dropped bytes are
valid padding is performed.  `none` models the IndexError raised on an
empty buffer. -/
def pyUnpadStage (padded : List Nat) : Option (List Nat) :=
  match padded.getLast? with
  | none => none
  | some p => some (if p = 0 then [] else padded.take (padded.length - p))

/-- Stage of report_parser.decrypt_stats_file after gzip decompression:
base64-decode, check the Salted__ header, split salt and payload, derive
key and IV with _evp_bytes_to_key, AES-256-CBC decrypt, strip padding. -/
def decryptFromB64RP (pwd b64payload : List Nat) : Option (List Nat) :=
  match b64decode b64payload with
  | none => none
  | some raw =>
    if raw.take 8 = saltedMagic then
      match evpBytesToKeyRP pwd ((raw.drop 8).take 8) 32 16 with
      | (key, iv) => pyUnpadStage (cbcDecrypt key iv (raw.drop 16))
    else none

/-- Shallow embedding of report_parser.decrypt_stats_file. -/
def decryptStatsFileRP (gunzip : List Nat → Option (List Nat))
    (enc pwd : List Nat) : Option (List Nat) :=
  (gunzip enc).bind (fun b => decryptFromB64RP pwd b)

/-- Stage of error_parser.decrypt_stats_file after gzip decompression;
identical to the report_parser variant except that key and IV come from
its own evp_bytes_to_key. -/
def decryptFromB64EP (pwd b64payload : List Nat) : Option (List Nat) :=
  match b64decode b64payload with
  | none => none
  | some raw =>
    if raw.take 8 = saltedMagic then
      match evpBytesToKeyEP pwd ((raw.drop 8).take 8) 32 16 with
      | (key, iv) => pyUnpadStage (cbcDecrypt key iv (raw.drop 16))
    else none

/-- Shallow embedding of error_parser.decrypt_stats_file. -/
def decryptStatsFileEP (gunzip : List Nat → Option (List Nat))
    (enc pwd : List Nat) : Option (List Nat) :=
  (gunzip enc).bind (fun b => decryptFromB64EP pwd b)

/-! ### The encryption side of the round trip -/

/-- Modelled from the spec: PKCS7 padding as produced by the OpenSSL
encryption invocation ("byte-padding scheme where the last byte encodes
the padding length"). -/
def pkcs7Pad (data : List Nat) : List Nat :=
  let p := 16 - data.length % 16
  data ++ List.replicate p p

/-- Modelled from the spec: the external OpenSSL encryption pipeline,
"base64 of Salted__ plus salt plus AES-256-CBC ciphertext under the
iterative-MD5-derived key/IV, with PKCS7 padding".  The final gzip
wrapping is handled abstractly through the `gunzip` parameter of
decrypt_stats_file. -/
def encryptStatsSpec (pt pwd salt : List Nat) : List Nat :=
  match evpBytesToKeyRP pwd salt 32 16 with
  | (key, iv) => b64encode (saltedMagic ++ salt ++ cbcEncrypt key iv (pkcs7Pad pt))

/-! ### Claim C3: the key-derivation scheme -/

theorem take_of_len_eq {α : Type} (a b : List α) {n : Nat}
    (h : a.length = n) : (a ++ b).take n = a := by
  subst h; exact List.take_left a b

theorem drop_of_len_eq {α : Type} (a b : List α) {n : Nat}
    (h : a.length = n) : (a ++ b).drop n = b := by
  subst h; exact List.drop_left a b

theorem evpAuxRP_succ (f need : Nat) (pwd salt d dtot : List Nat) :
    evpAuxRP (f + 1) pwd salt need d dtot =
      if dtot.length < need then
        evpAuxRP f pwd salt need (md5 (d ++ pwd ++ salt))
          (dtot ++ md5 (d ++ pwd ++ salt))
      else dtot := rfl

theorem evpAuxEP_succ (f need : Nat) (pwd salt dtot : List Nat) :
    evpAuxEP (f + 1) pwd salt need dtot =
      if dtot.length < need then
        evpAuxEP f pwd salt need (dtot ++ md5 (dtot ++ pwd ++ salt))
      else dtot := rfl

theorem evpAuxRP_eq_stream (pwd salt : List Nat) :
    evpAuxRP 48 pwd salt 48 [] [] = kdfSpecStream pwd salt := by
  rw [show (48 : Nat) = 47 + 1 from rfl, evpAuxRP_succ,
    if_pos (by simp)]
  rw [show (47 : Nat) = 46 + 1 from rfl, evpAuxRP_succ,
    if_pos (by simp [md5_length])]
  rw [show (46 : Nat) = 45 + 1 from rfl, evpAuxRP_succ,
    if_pos (by simp [md5_length])]
  rw [show (45 : Nat) = 44 + 1 from rfl, evpAuxRP_succ,
    if_neg (by simp [md5_length])]
  simp [kdfSpecStream, kdfDigestChain]

/-- The digest written by the third round of error_parser.evp_bytes_to_key:
the MD5 of the whole 32-byte accumulated stream followed by password and
salt, unlike the scheme, which hashes only the previous 16-byte digest. -/
def epThirdDigest (pwd salt : List Nat) : List Nat :=
  md5 (kdfDigestChain pwd salt 0 ++ kdfDigestChain pwd salt 1 ++ pwd ++ salt)

theorem evpAuxEP_eq_stream (pwd salt : List Nat) :
    evpAuxEP 48 pwd salt 48 [] =
      kdfDigestChain pwd salt 0 ++ kdfDigestChain pwd salt 1 ++
        epThirdDigest pwd salt := by
  rw [show (48 : Nat) = 47 + 1 from rfl, evpAuxEP_succ,
    if_pos (by simp)]
  rw [show (47 : Nat) = 46 + 1 from rfl, evpAuxEP_succ,
    if_pos (by simp [md5_length])]
  rw [show (46 : Nat) = 45 + 1 from rfl, evpAuxEP_succ,
    if_pos (by simp [md5_length])]
  rw [show (45 : Nat) = 44 + 1 from rfl, evpAuxEP_succ,
    if_neg (by simp [md5_length])]
  simp [epThirdDigest, kdfDigestChain]

theorem evpRP_spec (pwd salt : List Nat) :
    evpBytesToKeyRP pwd salt 32 16 =
      ((kdfSpecStream pwd salt).take 32,
       ((kdfSpecStream pwd salt).drop 32).take 16) := by
  unfold evpBytesToKeyRP
  rw [show (32 + 16 : Nat) = 48 from rfl, evpAuxRP_eq_stream]

theorem evpEP_spec (pwd salt : List Nat) :
    evpBytesToKeyEP pwd salt 32 16 =
      ((kdfDigestChain pwd salt 0 ++ kdfDigestChain pwd salt 1 ++
          epThirdDigest pwd salt).take 32,
       ((kdfDigestChain pwd salt 0 ++ kdfDigestChain pwd salt 1 ++
          epThirdDigest pwd salt).drop 32).take 16) := by
  unfold evpBytesToKeyEP
  rw [show (32 + 16 : Nat) = 48 from rfl, evpAuxEP_eq_stream]

theorem evpEP_key (pwd salt : List Nat) :
    (evpBytesToKeyEP pwd salt 32 16).1 =
      kdfDigestChain pwd salt 0 ++ kdfDigestChain pwd salt 1 := by
  rw [evpEP_spec]
  exact take_of_len_eq _ _ (by simp [kdfDigestChain, md5_length])

theorem evpRP_key (pwd salt : List Nat) :
    (evpBytesToKeyRP pwd salt 32 16).1 =
      kdfDigestChain pwd salt 0 ++ kdfDigestChain pwd salt 1 := by
  rw [evpRP_spec]
  show (kdfSpecStream pwd salt).take 32 = _
  unfold kdfSpecStream
  exact take_of_len_eq _ _ (by simp [kdfDigestChain, md5_length])

def c3Pwd : List Nat := [107, 101, 121]

def c3Salt : List Nat := [1, 2, 3, 4, 5, 6, 7, 8]

/-- C3, counterexample: the claim asserts that the two source
implementations of the derivation compute the same (key, IV) for every
input; at password "key" and salt 0102030405060708 they do not (the keys
agree but the IVs differ). -/
theorem c3_kdf_counterexample :
    evpBytesToKeyRP c3Pwd c3Salt 32 16 ≠ evpBytesToKeyEP c3Pwd c3Salt 32 16 := by
  decide

/-- C3 (amended): report_parser._evp_bytes_to_key implements the
iterative-MD5 scheme exactly (repeatedly hashing previous digest,
password, salt, from an empty digest, until 48 bytes exist; first 32
bytes key, next 16 IV); error_parser.evp_bytes_to_key instead hashes the
entire accumulated digest stream each round, which yields the same
32-byte key for every input but a different IV in general (concretely at
password "key", salt 0102030405060708). -/
theorem c3_kdf_amended :
    (∀ pwd salt : List Nat,
      evpBytesToKeyRP pwd salt 32 16 =
        ((kdfSpecStream pwd salt).take 32,
         ((kdfSpecStream pwd salt).drop 32).take 16)) ∧
    (∀ pwd salt : List Nat,
      (evpBytesToKeyRP pwd salt 32 16).1 = (evpBytesToKeyEP pwd salt 32 16).1) ∧
    (evpBytesToKeyRP c3Pwd c3Salt 32 16).2 ≠
      (evpBytesToKeyEP c3Pwd c3Salt 32 16).2 := by
  refine ⟨evpRP_spec, ?_, ?_⟩
  · intro pwd salt
    rw [evpRP_key, evpEP_key]
  · decide

/-- C3, witness: the scheme equation of the amended claim evaluated at
the concrete password and salt of the counterexample. -/
theorem c3_kdf_witness :
    evpBytesToKeyRP c3Pwd c3Salt 32 16 =
      ((kdfSpecStream c3Pwd c3Salt).take 32,
       ((kdfSpecStream c3Pwd c3Salt).drop 32).take 16) :=
  c3_kdf_amended.1 c3Pwd c3Salt

/-! ### Claim C4: decryption round trip -/

/-- A 20-byte plaintext (the ASCII text "GC38.5 1000 / GC40 20" with tab
and newline separators, in the shape of a decrypted stats file). -/
def c4Plain : List Nat :=
  [71, 67, 51, 56, 46, 53, 9, 49, 48, 48, 48, 10,
   71, 67, 52, 48, 9, 50, 48, 10]

def c4Pwd : List Nat := [115, 101, 99, 114, 101, 116]

def c4Salt : List Nat := [8, 7, 6, 5, 4, 3, 2, 1]

set_option maxHeartbeats 4000000 in
/-- C4: encrypting a plaintext longer than 16 bytes with the documented
scheme (base64 of Salted__ plus salt plus AES-256-CBC ciphertext under
the iterative-MD5-derived key/IV with PKCS7 padding, then gzip) and
applying decrypt_stats_file with the same password returns exactly the
original plaintext; the gzip wrapping is any decompressor that restores
the base64 payload. -/
theorem c4_roundtrip (gunzip : List Nat → Option (List Nat)) (gz : List Nat)
    (h : gunzip gz = some (encryptStatsSpec c4Plain c4Pwd c4Salt)) :
    decryptStatsFileRP gunzip gz c4Pwd = some c4Plain ∧
      16 < c4Plain.length := by
  refine ⟨?_, by decide⟩
  unfold decryptStatsFileRP
  rw [h]
  decide

set_option maxHeartbeats 4000000 in
/-- C4, witness: the round trip evaluated with a concrete decompressor. -/
theorem c4_roundtrip_witness :
    decryptStatsFileRP (fun _ => some (encryptStatsSpec c4Plain c4Pwd c4Salt))
        [] c4Pwd = some c4Plain ∧ 16 < c4Plain.length :=
  c4_roundtrip (fun _ => some (encryptStatsSpec c4Plain c4Pwd c4Salt)) [] rfl

/-! ### Claim C9: the padding-strip step -/

def c9Pwd : List Nat := [112, 119]

def c9Salt : List Nat := [9, 9, 9, 9, 9, 9, 9, 9]

/-- A 16-byte AES block whose final byte is 0: after CBC decryption the
padding-strip step reads pad length 0 and drops everything. -/
def c9Padded : List Nat :=
  [71, 67, 1, 2, 3, 4, 5, 6, 7, 8, 9, 10, 11, 12, 13, 0]

/-- The encrypted stream (before gzip) whose decryption is exactly
`c9Padded`: built with the error_parser key derivation so that
decrypt_stats_file of error_parser accepts it. -/
def c9Stream : List Nat :=
  match evpBytesToKeyEP c9Pwd c9Salt 32 16 with
  | (key, iv) => b64encode (saltedMagic ++ c9Salt ++ cbcEncrypt key iv c9Padded)

set_option maxHeartbeats 4000000 in
/-- C9: decrypt_stats_file strips padding by dropping the number of
trailing bytes given by the last decrypted byte, with no check that the
dropped bytes are valid PKCS7 padding (a buffer whose trailing bytes are
not all equal to the pad byte is accepted), and a final byte of 0 makes
the Python slice empty, so the whole plaintext is silently discarded:
a full decryption whose underlying buffer ends in 0 returns the empty
string. -/
theorem c9_unpad_behavior :
    (∀ (b : List Nat) (p : Nat), b.getLast? = some p → p ≠ 0 →
      pyUnpadStage b = some (b.take (b.length - p))) ∧
    (∀ b : List Nat, b.getLast? = some 0 → pyUnpadStage b = some []) ∧
    pyUnpadStage [9, 9, 1, 2] = some [9, 9] ∧
    decryptStatsFileEP (fun _ => some c9Stream) [] c9Pwd = some [] := by
  refine ⟨?_, ?_, by decide, by decide⟩
  · intro b p h hp
    unfold pyUnpadStage
    rw [h]
    simp [hp]
  · intro b h
    unfold pyUnpadStage
    rw [h]
    simp

/-- C9, witness: the padding-strip characterization applied to concrete
buffers, including one with invalid padding bytes. -/
theorem c9_unpad_witness :
    pyUnpadStage [5, 6, 7, 1] = some [5, 6, 7] ∧
    pyUnpadStage [5, 6, 0] = some [] := by
  constructor
  · exact (c9_unpad_behavior.1 [5, 6, 7, 1] 1 rfl (by decide)).trans (by decide)
  · exact c9_unpad_behavior.2.1 [5, 6, 0] rfl

/-! ### Decimal parsing

Models of the Python conversions `int(...)` and `float(...)` as applied
to the cell contents of the QC text files: an optional sign followed by
decimal digits, with an optional fractional part for floats.  Parse
failure models the ValueError raised by the Python conversions. -/

def digitVal (c : Char) : Option Nat :=
  if c.isDigit then some (c.toNat - 48) else none

def natOfDigits : List Char → Option Nat
  | [] => none
  | l =>
    l.foldl
      (fun acc c =>
        match acc, digitVal c with
        | some n, some d => some (10 * n + d)
        | _, _ => none)
      (some 0)

/-- Model of Python `int(...)` on a stripped cell. -/
def parseIntStr (s : String) : Option Int :=
  match s.toList with
  | '-' :: rest => (natOfDigits rest).map (fun n => -(n : Int))
  | l => (natOfDigits l).map (fun n => (n : Int))

def splitAtDot : List Char → List Char × Option (List Char)
  | [] => ([], none)
  | c :: rest =>
    if c = '.' then ([], some rest)
    else
      match splitAtDot rest with
      | (ip, fp) => (c :: ip, fp)

def ratOfParts (ip : List Char) (fp : Option (List Char)) : Option Rat :=
  match fp with
  | none => (natOfDigits ip).map (fun n => (n : Rat))
  | some f =>
    match ip, f with
    | [], [] => none
    | _, _ =>
      let ipv : Option Nat := if ip = [] then some 0 else natOfDigits ip
      let fpv : Option Nat := if f = [] then some 0 else natOfDigits f
      match ipv, fpv with
      | some a, some b => some ((a : Rat) + (b : Rat) / ((10 : Rat) ^ f.length))
      | _, _ => none

def parseRatCore (l : List Char) : Option Rat :=
  match splitAtDot l with
  | (ip, fp) => ratOfParts ip fp

/-- Model of Python `float(...)` on a stripped cell. -/
def parseRatStr (s : String) : Option Rat :=
  match s.toList with
  | '-' :: rest => (parseRatCore rest).map (fun q => -q)
  | l => parseRatCore l

theorem parse_spot_checks :
    parseIntStr "600" = some 600 ∧ parseIntStr "1.5" = none ∧
    parseIntStr "-3" = some (-3) ∧
    parseRatStr "40.0" = some 40 ∧ parseRatStr "70.25" = some (281 / 4) ∧
    parseRatStr "" = none ∧ parseRatStr "a" = none := by
  with_unfolding_all decide

/-! ### The species classifier

Shallow embedding of report_flagger.check_species; the error_parser
variant (lines 80-148) is line for line the same computation and differs
only in the flag-key spelling of the returned strings, so this embedding
covers both.  The file content is modelled as the list of its lines,
each already stripped and tab-split (`line.strip().split("\t")`);
`none` models a missing file.  The guard `len(lines) >= 3` of the source
is expressed by the three-cons pattern. -/

inductive SpeciesVerdict
  | noWarn
  | fileMissing
  | spErrorCols
  | spErrorExc
  | notHuman (genome : String) (reads : Int)
  | unknown (pct : Rat)
deriving DecidableEq

/-- First index of an exact string in a list, modelling `list.index(x)`
of the header row. -/
def indexOfStr (x : String) : List String → Option Nat
  | [] => none
  | y :: ys => if y = x then some 0 else (indexOfStr x ys).map (· + 1)

/-- State of the scan over data rows: running maximum one-hit count and
the genome name and one-hit percentage of the row that attained it. -/
structure SpeciesRowScan where
  maxVal : Int
  maxSpecies : String
  maxPercent : Rat
deriving DecidableEq

/-- One data row of the scan in check_species.  `none` models the
IndexError raised by `cells[species_idx]` when the row is long enough to
pass the length guard but too short for the genome column. -/
def speciesScanStep (g o p : Nat) (acc : SpeciesRowScan) (cells : List String) :
    Option SpeciesRowScan :=
  if cells.length ≤ max o p then some acc
  else
    match cells.get? g with
    | none => none
    | some sp =>
      match parseIntStr (cells.getD o ""), parseRatStr (cells.getD p "") with
      | some oh, some pc =>
        some (if oh > acc.maxVal then ⟨oh, sp, pc⟩ else acc)
      | _, _ => some acc

def speciesScan (g o p : Nat) (acc : SpeciesRowScan) :
    List (List String) → Option SpeciesRowScan
  | [] => some acc
  | r :: rs =>
    match speciesScanStep g o p acc r with
    | none => none
    | some acc2 => speciesScan g o p acc2 rs

/-- Shallow embedding of check_species. -/
def checkSpecies (content : Option (List (List String))) (warnMissing : Bool) :
    SpeciesVerdict :=
  match content with
  | none => if warnMissing then .fileMissing else .noWarn
  | some (_ :: hdr :: r2 :: rest) =>
    match indexOfStr "Genome" hdr, indexOfStr "#One_hit_one_genome" hdr,
        indexOfStr "%One_hit_one_genome" hdr with
    | some g, some o, some p =>
      match speciesScan g o p ⟨-1, "", 0⟩ (r2 :: rest) with
      | none => .spErrorExc
      | some acc =>
        if acc.maxSpecies ≠ "Human" then .notHuman acc.maxSpecies acc.maxVal
        else if acc.maxPercent < 5 then .unknown acc.maxPercent
        else .noWarn
    | _, _, _ => .spErrorCols
  | some _ => .noWarn

/-- The rows of the scan that pass the length guard and parse: the
candidate (one-hit count, genome, percent) triples. -/
def validTriple (g o p : Nat) (cells : List String) :
    Option (Int × String × Rat) :=
  if cells.length ≤ max o p then none
  else
    match cells.get? g, parseIntStr (cells.getD o ""),
        parseRatStr (cells.getD p "") with
    | some sp, some oh, some pc => some (oh, sp, pc)
    | _, _, _ => none

def winnerStep (g o p : Nat) (acc : SpeciesRowScan) (cells : List String) :
    SpeciesRowScan :=
  match validTriple g o p cells with
  | some (oh, sp, pc) => if oh > acc.maxVal then ⟨oh, sp, pc⟩ else acc
  | none => acc

/-- The row with the maximum one-hit count, ties keeping the first-seen
maximum: a left fold that replaces the current best only on a strictly
larger count. -/
def winnerAcc (g o p : Nat) (rows : List (List String)) : SpeciesRowScan :=
  rows.foldl (winnerStep g o p) ⟨-1, "", 0⟩

theorem speciesScan_eq_winner (g o p : Nat) (hg : g ≤ max o p)
    (rows : List (List String)) :
    ∀ acc, speciesScan g o p acc rows = some (rows.foldl (winnerStep g o p) acc) := by
  induction rows with
  | nil => intro acc; rfl
  | cons r rs ih =>
    intro acc
    by_cases hl : r.length ≤ max o p
    · have hstep : speciesScanStep g o p acc r = some acc := by
        unfold speciesScanStep; rw [if_pos hl]
      have hwin : winnerStep g o p acc r = acc := by
        unfold winnerStep validTriple; rw [if_pos hl]
      simp only [speciesScan, List.foldl_cons, hstep, hwin]
      exact ih acc
    · have hglt : g < r.length := lt_of_le_of_lt hg (lt_of_not_le hl)
      obtain ⟨sp, hsp⟩ : ∃ sp, r.get? g = some sp :=
        ⟨r.get ⟨g, hglt⟩, List.get?_eq_get hglt⟩
      have hstep : speciesScanStep g o p acc r =
          some (winnerStep g o p acc r) := by
        unfold speciesScanStep winnerStep validTriple
        rw [if_neg hl, if_neg hl, hsp]
        cases parseIntStr (r.getD o "") with
        | none => rfl
        | some oh =>
          cases parseRatStr (r.getD p "") with
          | none => rfl
          | some pc => rfl
      simp only [speciesScan, List.foldl_cons, hstep]
      exact ih _

theorem winnerAcc_bounds (g o p : Nat) (rows : List (List String)) :
    ∀ acc, acc.maxVal ≤ (rows.foldl (winnerStep g o p) acc).maxVal ∧
      ∀ t ∈ rows.filterMap (validTriple g o p),
        t.1 ≤ (rows.foldl (winnerStep g o p) acc).maxVal := by
  induction rows with
  | nil => intro acc; exact ⟨le_refl _, by simp⟩
  | cons r rs ih =>
    intro acc
    have hmono : acc.maxVal ≤ (winnerStep g o p acc r).maxVal := by
      unfold winnerStep
      cases h : validTriple g o p r with
      | none => exact le_refl _
      | some t =>
        obtain ⟨oh, sp, pc⟩ := t
        by_cases hgt : oh > acc.maxVal
        · simp only [if_pos hgt]; exact le_of_lt hgt
        · simp only [if_neg hgt]; exact le_refl _
    constructor
    · calc acc.maxVal ≤ (winnerStep g o p acc r).maxVal := hmono
        _ ≤ _ := (ih (winnerStep g o p acc r)).1
    · intro t ht
      rcases hvt : validTriple g o p r with _ | ⟨oh, sp, pc⟩
      · simp only [List.filterMap_cons, hvt] at ht
        exact (ih (winnerStep g o p acc r)).2 t ht
      · simp only [List.filterMap_cons, hvt] at ht
        rcases List.mem_cons.mp ht with heq | hmem
        · subst heq
          have hfirst : oh ≤ (winnerStep g o p acc r).maxVal := by
            unfold winnerStep
            rw [hvt]
            by_cases hgt : oh > acc.maxVal
            · simp only [if_pos hgt]; exact le_refl _
            · simp only [if_neg hgt]; exact le_of_not_lt hgt
          exact le_trans hfirst (ih (winnerStep g o p acc r)).1
        · exact (ih (winnerStep g o p acc r)).2 _ hmem

/-- C6, amended: with the three required header columns located and the
genome column not strictly right of both numeric columns (so that no row
can pass the length guard yet fail the genome lookup), check_species
returns the verdict of the first-seen maximum-one-hit row: sp_not_human
iff its genome is not "Human", otherwise species_unknown iff its one-hit
percent is below 5.0, otherwise no warning; the winning count bounds
every valid row; a header missing any required column name yields
species_error; and species_error is not limited to missing columns: with
all columns present, a scan aborted by the genome lookup (the IndexError
of `cells[species_idx]` on a row that passes the length guard) also
yields species_error. -/
theorem c6_species_amended :
    (∀ (l0 hdr r2 : List String) (rest : List (List String)) (w : Bool)
        (g o p : Nat),
      indexOfStr "Genome" hdr = some g →
      indexOfStr "#One_hit_one_genome" hdr = some o →
      indexOfStr "%One_hit_one_genome" hdr = some p →
      g ≤ max o p →
      (checkSpecies (some (l0 :: hdr :: r2 :: rest)) w =
        (if (winnerAcc g o p (r2 :: rest)).maxSpecies ≠ "Human" then
          SpeciesVerdict.notHuman (winnerAcc g o p (r2 :: rest)).maxSpecies
            (winnerAcc g o p (r2 :: rest)).maxVal
        else if (winnerAcc g o p (r2 :: rest)).maxPercent < 5 then
          SpeciesVerdict.unknown (winnerAcc g o p (r2 :: rest)).maxPercent
        else SpeciesVerdict.noWarn)) ∧
      ∀ t ∈ (r2 :: rest).filterMap (validTriple g o p),
        t.1 ≤ (winnerAcc g o p (r2 :: rest)).maxVal) ∧
    (∀ (l0 hdr r2 : List String) (rest : List (List String)) (w : Bool),
      (indexOfStr "Genome" hdr = none ∨
       indexOfStr "#One_hit_one_genome" hdr = none ∨
       indexOfStr "%One_hit_one_genome" hdr = none) →
      checkSpecies (some (l0 :: hdr :: r2 :: rest)) w = .spErrorCols) ∧
    (∀ (l0 hdr r2 : List String) (rest : List (List String)) (w : Bool)
        (g o p : Nat),
      indexOfStr "Genome" hdr = some g →
      indexOfStr "#One_hit_one_genome" hdr = some o →
      indexOfStr "%One_hit_one_genome" hdr = some p →
      speciesScan g o p ⟨-1, "", 0⟩ (r2 :: rest) = none →
      checkSpecies (some (l0 :: hdr :: r2 :: rest)) w = .spErrorExc) := by
  refine ⟨?_, ?_, ?_⟩
  · intro l0 hdr r2 rest w g o p hG hO hP hg
    constructor
    · simp only [checkSpecies]
      rw [hG, hO, hP]
      dsimp only
      rw [speciesScan_eq_winner g o p hg (r2 :: rest) ⟨-1, "", 0⟩]
      rfl
    · exact (winnerAcc_bounds g o p (r2 :: rest) ⟨-1, "", 0⟩).2
  · intro l0 hdr r2 rest w h
    simp only [checkSpecies]
    rcases h with h | h | h
    · rw [h]
    · rw [h]
      cases indexOfStr "Genome" hdr <;> rfl
    · rw [h]
      cases indexOfStr "Genome" hdr <;>
        cases indexOfStr "#One_hit_one_genome" hdr <;> rfl
  · intro l0 hdr r2 rest w g o p hG hO hP hscan
    simp only [checkSpecies]
    rw [hG, hO, hP]
    dsimp only
    rw [hscan]

/-- C6, counterexample to the original claim: a present report whose
header contains all three required column names, with Genome right of
both numeric columns; its single data row passes the length guard
(2 cells > max(0, 1)) but is too short for the genome column, so
`cells[species_idx]` raises IndexError into the outer handler and
check_species returns species_error — none of the sp_not_human /
species_unknown / no-warning verdicts the claim allows when every
required column name is present. -/
theorem c6_species_counterexample :
    indexOfStr "Genome"
      ["#One_hit_one_genome", "%One_hit_one_genome", "Genome"] = some 2 ∧
    indexOfStr "#One_hit_one_genome"
      ["#One_hit_one_genome", "%One_hit_one_genome", "Genome"] = some 0 ∧
    indexOfStr "%One_hit_one_genome"
      ["#One_hit_one_genome", "%One_hit_one_genome", "Genome"] = some 1 ∧
    checkSpecies (some [["fastq_screen version 0.14.0"],
      ["#One_hit_one_genome", "%One_hit_one_genome", "Genome"],
      ["7", "3.0"]]) true = .spErrorExc := by
  with_unfolding_all decide

/-- C6, witness: the classifier on a report with one-hit counts 100
(Mouse) and 50 (Human) selects the 100-count Mouse row and reports
sp_not_human. -/
theorem c6_species_witness :
    checkSpecies (some [["header line"],
      ["Genome", "#One_hit_one_genome", "%One_hit_one_genome"],
      ["Mouse", "100", "50.0"],
      ["Human", "50", "3.0"]]) true = .notHuman "Mouse" 100 := by
  have h := (c6_species_amended.1 ["header line"]
    ["Genome", "#One_hit_one_genome", "%One_hit_one_genome"]
    ["Mouse", "100", "50.0"] [["Human", "50", "3.0"]] true 0 1 2
    rfl rfl rfl (by decide)).1
  refine h.trans ?_
  with_unfolding_all decide

/-- C10: a species file that exists but has fewer than 3 lines produces
no warning at all, unlike a missing file (which warns exactly when the
flag is set). -/
theorem c10_short_species_file (lines : List (List String)) (w : Bool)
    (h : lines.length < 3) :
    checkSpecies (some lines) w = .noWarn ∧
    checkSpecies none true = .fileMissing ∧
    checkSpecies none false = .noWarn := by
  refine ⟨?_, rfl, rfl⟩
  match lines, h with
  | [], _ => rfl
  | [a], _ => rfl
  | [a, b], _ => rfl
  | a :: b :: c :: rest, h => exact absurd h (by simp)

/-- C10, witness: a two-line species report passes silently. -/
theorem c10_short_species_witness :
    checkSpecies (some [["only"], ["two lines"]]) true = .noWarn :=
  (c10_short_species_file [["only"], ["two lines"]] true (by decide)).1

/-! ### Python string helpers

Models of the Python string operations used by the FastQC module parser:
`strip`, `startswith`, and `split` at tab. -/

def pyIsSpace (c : Char) : Bool :=
  c == ' ' || c == '\t' || c == '\n' || c == '\r'

/-- Model of `line.strip()`. -/
def pyStrip (s : String) : String :=
  String.mk (((s.toList.dropWhile pyIsSpace).reverse.dropWhile pyIsSpace).reverse)

/-- Model of `line.startswith(pre)`. -/
def pyStartsWith (s pre : String) : Bool :=
  pre.toList.isPrefixOf s.toList

def pySplitTabChars : List Char → List (List Char)
  | [] => [[]]
  | c :: rest =>
    let r := pySplitTabChars rest
    if c == '\t' then [] :: r
    else
      match r with
      | h :: t => (c :: h) :: t
      | [] => [[c]]

/-- Model of `line.split("\t")`: splits at every tab, keeping empty
fields, and yields one empty field for the empty string. -/
def pySplitTab (s : String) : List String :=
  (pySplitTabChars s.toList).map String.mk

theorem pyString_spot_checks :
    pyStrip "  a b\t\n" = "a b" ∧
    pySplitTab "40.0\t600" = ["40.0", "600"] ∧
    pySplitTab "a\t" = ["a", ""] ∧
    pyStartsWith ">>Per sequence GC content\tpass" ">>Per sequence GC content"
      = true := by
  with_unfolding_all decide

/-! ### The FastQC module parser of report_flagger.analyze_fastq

Shallow embedding of the line loop of report_flagger.analyze_fastq
(lines 192-314), from the decoded fastqc_data.txt lines onward (the zip
extraction is I/O performed by the caller); the error_parser variant
(lines 305-422) runs the same loop.  Lines are modelled without their
trailing newline, which the source strips or ignores via startswith.
An exception inside the loop (a failing float conversion) aborts the
scan, keeps all counts made so far and sets the error flag, modelling
the enclosing try/except. -/

structure FastqRes where
  gcPct : Option Rat
  dupPct : Option Rat
  cntGcOut : Nat
  cntDup : Nat
  cntQualLow : Nat
  gcZeroWarnings : Nat
  qualZeroWarnings : Nat
  spVerdict : SpeciesVerdict
  cntSp : Nat
  warningsFound : Bool
  procError : Bool
deriving DecidableEq

def fastqRes0 : FastqRes :=
  ⟨none, none, 0, 0, 0, 0, 0, .noWarn, 0, false, false⟩

def fqProcErr (res : FastqRes) : FastqRes :=
  { res with procError := true, warningsFound := true }

/-- Model of `for line in lines_iter: if line.startswith(m): break`:
consume lines up to and including the first one starting with `m`. -/
def skipUntil (m : String) : List String → List String
  | [] => []
  | l :: ls => if pyStartsWith l m then ls else skipUntil m ls

/-- Model of the row-collection loops of the GC-content and
quality-scores modules: tab-split each stripped line, keep rows of
exactly two fields, convert both with float() (`none` models the
ValueError), stop at the END_MODULE marker. -/
def moduleRows : List String → Option (List (Rat × Rat) × List String)
  | [] => some ([], [])
  | l :: ls =>
    if pyStartsWith l ">>END_MODULE" then some ([], ls)
    else
      match pySplitTab (pyStrip l) with
      | [a, b] =>
        match parseRatStr a, parseRatStr b with
        | some x, some y =>
          match moduleRows ls with
          | some (rows, rest) => some ((x, y) :: rows, rest)
          | none => none
        | _, _ => none
      | _ => moduleRows ls

/-- Model of the Sequence Duplication Levels loop: scan for the
`#Total Deduplicated Percentage` line, convert its second field and
return `100 - dedup`, then break. -/
def dupScan : List String → Option (Option Rat × List String)
  | [] => some (none, [])
  | l :: ls =>
    if pyStartsWith l "#Total Deduplicated Percentage" then
      match pySplitTab (pyStrip l) with
      | [_, b] =>
        match parseRatStr b with
        | some d => some (some (100 - d), ls)
        | none => none
      | _ => some (none, ls)
    else dupScan ls

def sumCounts (rows : List (Rat × Rat)) : Rat := (rows.map (·.2)).sum

def gcInRangeSum (rows : List (Rat × Rat)) : Rat :=
  ((rows.filter (fun rc => decide (35 ≤ rc.1 ∧ rc.1 ≤ 55))).map (·.2)).sum

def lowQualSum (rows : List (Rat × Rat)) : Rat :=
  ((rows.filter (fun qc => decide (qc.1 < 20))).map (·.2)).sum

/-- The main line loop of report_flagger.analyze_fastq; `fuel` bounds the
recursion and is at least the number of lines on every call. -/
def fqStep : Nat → List String → FastqRes → FastqRes
  | 0, _, res => res
  | _, [], res => res
  | f + 1, l :: ls, res =>
    let l2 := pyStrip l
    if pyStartsWith l2 ">>Per sequence GC content" then
      match moduleRows (skipUntil "#GC Content" ls) with
      | none => fqProcErr res
      | some (rows, rest) =>
        let total := sumCounts rows
        if total > 0 then
          let pct := gcInRangeSum rows / total * 100
          let res2 := { res with gcPct := some pct }
          if ¬(35 ≤ pct ∧ pct ≤ 55) then
            fqStep f rest
              { res2 with cntGcOut := res2.cntGcOut + 1, warningsFound := true }
          else fqStep f rest res2
        else
          fqStep f rest
            { res with gcZeroWarnings := res.gcZeroWarnings + 1,
                       warningsFound := true }
    else if pyStartsWith l2 ">>Sequence Duplication Levels" then
      match dupScan ls with
      | none => fqProcErr res
      | some (none, rest) => fqStep f rest res
      | some (some d, rest) =>
        let res2 := { res with dupPct := some d }
        if d > 20 then
          fqStep f rest
            { res2 with cntDup := res2.cntDup + 1, warningsFound := true }
        else fqStep f rest res2
    else if pyStartsWith l2 ">>Per sequence quality scores" then
      match moduleRows (skipUntil "#Quality" ls) with
      | none => fqProcErr res
      | some (rows, rest) =>
        let total := sumCounts rows
        if total > 0 then
          let lowPct := lowQualSum rows / total * 100
          if lowPct > 20 then
            fqStep f rest
              { res with cntQualLow := res.cntQualLow + 1,
                         warningsFound := true }
          else fqStep f rest res
        else
          fqStep f rest
            { res with qualZeroWarnings := res.qualZeroWarnings + 1,
                       warningsFound := true }
    else fqStep f ls res

/-- Shallow embedding of report_flagger.analyze_fastq from the decoded
report lines onward: run the module loop, then the species check, whose
nonempty warning increments the species flag-key count. -/
def analyzeFastqRF (lines : List String)
    (sp : Option (List (List String))) (warnMissing : Bool) : FastqRes :=
  let res := fqStep (lines.length + 1) lines fastqRes0
  if res.procError then res
  else
    let v := checkSpecies sp warnMissing
    if v = SpeciesVerdict.noWarn then res
    else { res with spVerdict := v, cntSp := res.cntSp + 1,
                    warningsFound := true }

/-- The FastQC report of the C2 scenario: a GC module with total count
1000 of which 600 fall in [35, 55], and a duplication module with total
deduplicated percentage 70. -/
def c2Lines : List String :=
  [">>Per sequence GC content\tpass",
   "#GC Content\tCount",
   "40.0\t600",
   "80.0\t400",
   ">>END_MODULE",
   ">>Sequence Duplication Levels\tpass",
   "#Total Deduplicated Percentage\t70.0",
   ">>END_MODULE"]

set_option maxHeartbeats 4000000 in
/-- C2, counterexample: on the scenario report the analyzer computes
gcInRangePct = 60.0 but, contrary to the claim, it does emit a GC
warning, because the comparison `35 <= gc_content_percentage <= 55`
fails at 60. -/
theorem c2_gc_counterexample :
    (analyzeFastqRF c2Lines none false).gcPct = some 60 ∧
    (analyzeFastqRF c2Lines none false).cntGcOut ≠ 0 := by
  with_unfolding_all decide

set_option maxHeartbeats 4000000 in
/-- C2 (amended): on the scenario report the analyzer computes
gcInRangePct = 60.0 and emits a GC warning (60 lies outside the accepted
range [35, 55] against which the computed percentage itself is checked);
the duplication module yields duplicate% = 30 and a duplicate-reads
warning, as claimed. -/
theorem c2_fastq_amended :
    (analyzeFastqRF c2Lines none false).gcPct = some 60 ∧
    (analyzeFastqRF c2Lines none false).cntGcOut = 1 ∧
    (analyzeFastqRF c2Lines none false).dupPct = some 30 ∧
    (analyzeFastqRF c2Lines none false).cntDup = 1 ∧
    (analyzeFastqRF c2Lines none false).warningsFound = true := by
  with_unfolding_all decide

/-! ### The BAM/CRAM analyzers

The parsed JSON summary is modelled as a record of its optional fields;
absent fields model `"X" in data_section` being false.  An empty
MappedReads or Duplicates array makes the `[0]` index raise, which the
enclosing try/except of the sources turns into an error that keeps all
output produced so far. -/

structure BamSummary where
  totalReads : Option Rat
  mappedReads : Option (List Rat)
  mapqDist : Option (List (Rat × Rat))
  duplicates : Option (List Rat)
  insertSize : Option Rat
deriving DecidableEq

/-- Sum of the distribution counts with quality at most 29, the
low-MAPQ numerator common to all source variants. -/
def lowMapqSum (dist : List (Rat × Rat)) : Rat :=
  ((dist.filter (fun qc => decide (qc.1 ≤ 29))).map (·.2)).sum

/-- Sum of all distribution counts, the denominator used by
report_parser.analyze_bamcram. -/
def distTotal (dist : List (Rat × Rat)) : Rat := (dist.map (·.2)).sum

/-- Result of report_flagger.analyze_bam_cram (and the identical metric
logic of report_checker and error_parser): per-flag warning counts, the
not-found warnings, the computed metric values, and the exception flag. -/
structure BamRes where
  cntUnaligned : Nat
  cntMapq : Nat
  cntDup : Nat
  mrNotFound : Bool
  mqNotFound : Bool
  dupNotFound : Bool
  unalignedVal : Option Rat
  lowMapqPct : Option Rat
  dupVal : Option Rat
  excError : Bool
  warningsFound : Bool
deriving DecidableEq

def bamRes0 : BamRes :=
  ⟨0, 0, 0, false, false, false, none, none, none, false, false⟩

/-- The Duplicates block of analyze_bam_cram. -/
def bamDupStep (s : BamSummary) (res : BamRes) : BamRes :=
  match s.duplicates with
  | none => { res with dupNotFound := true, warningsFound := true }
  | some [] => { res with excError := true, warningsFound := true }
  | some (d :: _) =>
    let v := d * 100
    let res2 := { res with dupVal := some v }
    if v > 20 then
      { res2 with cntDup := res2.cntDup + 1, warningsFound := true }
    else res2

/-- The MappingQualityDistribution block of analyze_bam_cram: the
percentage divides the low-MAPQ sum by the top-level TotalReads field
(default 0) and is 0 when TotalReads is not positive. -/
def bamMapqStep (s : BamSummary) (res : BamRes) : BamRes :=
  match s.mapqDist with
  | none => bamDupStep s { res with mqNotFound := true, warningsFound := true }
  | some dist =>
    let tot := s.totalReads.getD 0
    let pct := if tot > 0 then lowMapqSum dist / tot * 100 else 0
    let res2 := { res with lowMapqPct := some pct }
    if pct > 20 then
      bamDupStep s { res2 with cntMapq := res2.cntMapq + 1, warningsFound := true }
    else bamDupStep s res2

/-- Shallow embedding of report_flagger.analyze_bam_cram from the parsed
summary onward: the MappedReads, MappingQualityDistribution and
Duplicates blocks in order, stopping at the first indexing exception. -/
def analyzeBamCramRF (s : BamSummary) : BamRes :=
  match s.mappedReads with
  | none => bamMapqStep s { bamRes0 with mrNotFound := true, warningsFound := true }
  | some [] => { bamRes0 with excError := true, warningsFound := true }
  | some (r :: _) =>
    let u := 100 - r * 100
    let res2 := { bamRes0 with unalignedVal := some u }
    if u > 40 then
      bamMapqStep s { res2 with cntUnaligned := res2.cntUnaligned + 1,
                                warningsFound := true }
    else bamMapqStep s res2

/-! report_parser.analyze_bamcram returns (flag, value) rows instead of
warnings; each block appends its row, and an indexing exception at
MappedReads[0] or Duplicates[0] cuts off all later blocks. -/

def pySplitWsChars : List Char → List (List Char)
  | [] => [[]]
  | c :: rest =>
    let r := pySplitWsChars rest
    if pyIsSpace c then [] :: r
    else
      match r with
      | h :: t => (c :: h) :: t
      | [] => [[c]]

/-- Model of Python `str.split()` with no argument: split on whitespace
runs and drop empty fields. -/
def pySplitWs (s : String) : List String :=
  ((pySplitWsChars s.toList).filter (fun l => decide (l ≠ []))).map String.mk

/-- Accumulator loop of report_parser._mean_gc_from_stats over the
decrypted lines: lines starting with GC and splitting into exactly three
whitespace fields contribute float(parts[1]) * int(parts[2]) to the
total and int(parts[2]) to the count; `none` models a conversion
exception. -/
def meanGcAux : List String → Rat → Int → Option (Rat × Int)
  | [], t, c => some (t, c)
  | l :: ls, t, c =>
    if pyStartsWith l "GC" then
      match pySplitWs l with
      | [_, b, n] =>
        match parseRatStr b, parseIntStr n with
        | some g, some k => meanGcAux ls (t + g * (k : Rat)) (c + k)
        | _, _ => none
      | _ => meanGcAux ls t c
    else meanGcAux ls t c

/-- Shallow embedding of report_parser._mean_gc_from_stats; the outer
`none` models an exception, the inner `none` the zero-count case. -/
def meanGcFromStats (lines : List String) : Option (Option Rat) :=
  match meanGcAux lines 0 0 with
  | none => none
  | some (t, c) => some (if c ≠ 0 then some (t / (c : Rat)) else none)

def insRowsOf (s : BamSummary) : List (String × Rat) :=
  match s.insertSize with
  | some v => [("insert_size", v)]
  | none => []

def mrRowsOf (s : BamSummary) : List (String × Rat) :=
  match s.mappedReads with
  | some (r :: _) => [("unaligned", 100 - r * 100)]
  | _ => []

def mqRowsOf (s : BamSummary) : List (String × Rat) :=
  match s.mapqDist with
  | some dist =>
    if distTotal dist ≠ 0 then
      [("mapq", lowMapqSum dist / distTotal dist * 100)]
    else []
  | none => []

def dpRowsOf (s : BamSummary) : List (String × Rat) :=
  match s.duplicates with
  | some (d :: _) => [("duplicate_reads", d * 100)]
  | _ => []

def gcRowsOf (dec : Option (List String)) : List (String × Rat) :=
  match dec with
  | none => []
  | some lines =>
    match meanGcFromStats lines with
    | some (some v) => [("gc_content", v)]
    | _ => []

/-- Shallow embedding of report_parser.analyze_bamcram: the blocks append
their rows in order; an indexing exception at MappedReads[0] or
Duplicates[0] returns the rows accumulated so far (a _mean_gc_from_stats
exception likewise only drops the gc row). -/
def analyzeBamcramRP (s : BamSummary) (dec : Option (List String)) :
    List (String × Rat) :=
  if s.mappedReads = some [] then insRowsOf s
  else if s.duplicates = some [] then insRowsOf s ++ mrRowsOf s ++ mqRowsOf s
  else insRowsOf s ++ mrRowsOf s ++ mqRowsOf s ++ dpRowsOf s ++ gcRowsOf dec

/-- Modelled from the claim wording of C1: 100 times the sum of counts
with quality at most 29, divided by the sum of all counts in the
distribution. -/
def mapqClaimFormula (dist : List (Rat × Rat)) : Rat :=
  100 * lowMapqSum dist / distTotal dist

set_option maxHeartbeats 1000000 in
/-- C1, counterexample: a summary with TotalReads 50 and a distribution
whose counts sum to 100 (all at quality 0).  The checker computes the
metric as 200 (dividing by TotalReads), while the claim formula
(dividing by the distribution total) gives 100. -/
theorem c1_mapq_counterexample :
    (analyzeBamCramRF ⟨some 50, none, some [(0, 100)], none, none⟩).lowMapqPct
      = some 200 ∧
    mapqClaimFormula [(0, 100)] = 100 ∧
    (analyzeBamCramRF ⟨some 50, none, some [(0, 100)], none, none⟩).lowMapqPct
      ≠ some (mapqClaimFormula [(0, 100)]) := by
  with_unfolding_all decide

theorem bamDupStep_preserves (s : BamSummary) (res : BamRes) :
    (bamDupStep s res).cntMapq = res.cntMapq ∧
    (bamDupStep s res).lowMapqPct = res.lowMapqPct := by
  unfold bamDupStep
  rcases s.duplicates with _ | (_ | ⟨d, dl⟩)
  · simp
  · simp
  · by_cases h : d * 100 > 20 <;> simp [h]

/-- The metric value of the MappingQualityDistribution block. -/
def bamMapqPct (s : BamSummary) (dist : List (Rat × Rat)) : Rat :=
  if s.totalReads.getD 0 > 0 then
    lowMapqSum dist / s.totalReads.getD 0 * 100
  else 0

theorem bamMapqStep_eval (s : BamSummary) (dist : List (Rat × Rat))
    (res : BamRes) (h : s.mapqDist = some dist) :
    (bamMapqStep s res).lowMapqPct = some (bamMapqPct s dist) ∧
    (bamMapqStep s res).cntMapq =
      res.cntMapq + (if bamMapqPct s dist > 20 then 1 else 0) := by
  unfold bamMapqStep
  rw [h]
  by_cases hp : bamMapqPct s dist > 20
  · have hp2 : (if s.totalReads.getD 0 > 0 then
        lowMapqSum dist / s.totalReads.getD 0 * 100 else 0) > 20 := hp
    simp only [if_pos hp2, if_pos hp]
    refine ⟨?_, ?_⟩
    · exact (bamDupStep_preserves s _).2.trans rfl
    · exact (bamDupStep_preserves s _).1.trans rfl
  · have hp2 : ¬((if s.totalReads.getD 0 > 0 then
        lowMapqSum dist / s.totalReads.getD 0 * 100 else 0) > 20) := hp
    simp only [if_neg hp2, if_neg hp]
    refine ⟨?_, ?_⟩
    · exact (bamDupStep_preserves s _).2.trans rfl
    · exact (bamDupStep_preserves s _).1.trans (by simp)

/-- C1 (amended): in report_flagger / report_checker / error_parser the
mapq metric divides the low-MAPQ sum by the top-level TotalReads field
(default 0), is 0 when TotalReads is not positive, and warns exactly
when it exceeds 20; in report_parser the metric divides by the
distribution total, equals the claim formula, and is omitted entirely
(rather than reported as 0) when the distribution total is zero. -/
theorem c1_mapq_amended :
    (∀ (s : BamSummary) (dist : List (Rat × Rat)),
      s.mapqDist = some dist → s.mappedReads ≠ some [] →
      (analyzeBamCramRF s).lowMapqPct = some (bamMapqPct s dist) ∧
      (analyzeBamCramRF s).cntMapq =
        (if bamMapqPct s dist > 20 then 1 else 0)) ∧
    (∀ (s : BamSummary) (dist : List (Rat × Rat))
        (dec : Option (List String)),
      s.mapqDist = some dist → s.mappedReads ≠ some [] →
      (distTotal dist ≠ 0 →
        ("mapq", mapqClaimFormula dist) ∈ analyzeBamcramRP s dec) ∧
      (distTotal dist = 0 →
        ∀ v, ("mapq", v) ∉ analyzeBamcramRP s dec)) := by
  constructor
  · intro s dist hmq hmr
    have key : ∀ res : BamRes, res.cntMapq = 0 →
        (bamMapqStep s res).lowMapqPct = some (bamMapqPct s dist) ∧
        (bamMapqStep s res).cntMapq =
          (if bamMapqPct s dist > 20 then 1 else 0) := by
      intro res h0
      refine ⟨(bamMapqStep_eval s dist res hmq).1, ?_⟩
      rw [(bamMapqStep_eval s dist res hmq).2, h0, Nat.zero_add]
    unfold analyzeBamCramRF
    cases hm : s.mappedReads with
    | none => exact key _ rfl
    | some l =>
      cases l with
      | nil => exact absurd hm hmr
      | cons r rl =>
        by_cases hu : 100 - r * 100 > 40
        · simp only [if_pos hu]; exact key _ rfl
        · simp only [if_neg hu]; exact key _ rfl
  · intro s dist dec hmq hmr
    obtain ⟨tr, mr, mq, du, ins⟩ := s
    have hmqrows : distTotal dist ≠ 0 →
        mqRowsOf ⟨tr, mr, mq, du, ins⟩ = [("mapq", mapqClaimFormula dist)] := by
      intro ht
      unfold mqRowsOf
      dsimp only at hmq ⊢
      rw [hmq]
      dsimp only
      rw [if_pos ht]
      have hcomm : lowMapqSum dist / distTotal dist * 100 =
          mapqClaimFormula dist := by
        unfold mapqClaimFormula; ring
      rw [hcomm]
    have hmqrows0 : distTotal dist = 0 → mqRowsOf ⟨tr, mr, mq, du, ins⟩ = [] := by
      intro ht
      unfold mqRowsOf
      dsimp only at hmq ⊢
      rw [hmq]
      dsimp only
      rw [if_neg (fun hc => hc ht)]
    have hnotIns : ∀ v : Rat, ("mapq", v) ∉ insRowsOf ⟨tr, mr, mq, du, ins⟩ := by
      intro v hv
      unfold insRowsOf at hv
      rcases ins with _ | x <;> simp at hv
    have hnotMr : ∀ v : Rat, ("mapq", v) ∉ mrRowsOf ⟨tr, mr, mq, du, ins⟩ := by
      intro v hv
      unfold mrRowsOf at hv
      rcases mr with _ | (_ | ⟨a, b⟩) <;> simp at hv
    have hnotDp : ∀ v : Rat, ("mapq", v) ∉ dpRowsOf ⟨tr, mr, mq, du, ins⟩ := by
      intro v hv
      unfold dpRowsOf at hv
      rcases du with _ | (_ | ⟨a, b⟩) <;> simp at hv
    have hnotGc : ∀ v : Rat, ("mapq", v) ∉ gcRowsOf dec := by
      intro v hv
      unfold gcRowsOf at hv
      rcases dec with _ | lines
      · simp at hv
      · cases hm : meanGcFromStats lines with
        | none => simp [hm] at hv
        | some o =>
          cases o with
          | none => simp [hm] at hv
          | some x => simp [hm] at hv
    constructor
    · intro ht
      unfold analyzeBamcramRP
      dsimp only
      rw [if_neg hmr]
      by_cases h2 : du = some []
      · rw [if_pos h2, hmqrows ht]
        simp [List.mem_append]
      · rw [if_neg h2, hmqrows ht]
        simp [List.mem_append]
    · intro ht v hv
      unfold analyzeBamcramRP at hv
      dsimp only at hv
      rw [if_neg hmr] at hv
      by_cases h2 : du = some []
      · rw [if_pos h2, hmqrows0 ht] at hv
        rcases List.mem_append.mp hv with h | h
        · rcases List.mem_append.mp h with h | h
          · exact hnotIns v h
          · exact hnotMr v h
        · exact absurd h (List.not_mem_nil _)
      · rw [if_neg h2, hmqrows0 ht] at hv
        rcases List.mem_append.mp hv with h | h
        · rcases List.mem_append.mp h with h | h
          · rcases List.mem_append.mp h with h | h
            · rcases List.mem_append.mp h with h | h
              · exact hnotIns v h
              · exact hnotMr v h
            · exact absurd h (List.not_mem_nil _)
          · exact hnotDp v h
        · exact hnotGc v h

set_option maxHeartbeats 1000000 in
/-- C1, witness: a summary with TotalReads 100 and 21 low-quality reads
gives metric 21 and a warning in the checker variants, and the
report_parser row carries the claim formula value. -/
theorem c1_mapq_witness :
    (analyzeBamCramRF ⟨some 100, none, some [(0, 21), (60, 79)], none, none⟩).lowMapqPct
      = some 21 ∧
    (analyzeBamCramRF ⟨some 100, none, some [(0, 21), (60, 79)], none, none⟩).cntMapq
      = 1 ∧
    ("mapq", mapqClaimFormula [(0, 21), (60, 79)]) ∈
      analyzeBamcramRP ⟨some 100, none, some [(0, 21), (60, 79)], none, none⟩ none := by
  refine ⟨?_, ?_, ?_⟩
  · refine ((c1_mapq_amended.1 ⟨some 100, none, some [(0, 21), (60, 79)], none, none⟩
      [(0, 21), (60, 79)] rfl (by simp)).1).trans ?_
    with_unfolding_all decide
  · refine ((c1_mapq_amended.1 ⟨some 100, none, some [(0, 21), (60, 79)], none, none⟩
      [(0, 21), (60, 79)] rfl (by simp)).2).trans ?_
    with_unfolding_all decide
  · exact (c1_mapq_amended.2 ⟨some 100, none, some [(0, 21), (60, 79)], none, none⟩
      [(0, 21), (60, 79)] none rfl (by simp)).1 (by with_unfolding_all decide)

/-! ### Claim C5: format dispatch

The outcome of reading and parsing the summary JSON: absent file is
`none`; a present file either fails before or during `json.load` with a
non-JSONDecodeError exception (readError, caught only by the outer
try of process_file), fails with json.JSONDecodeError (jsonError,
caught locally), or parses to an object whose field names are listed. -/

inductive ParsedJson
  | readError
  | jsonError
  | obj (fields : List String)
deriving DecidableEq

/-- Observable outcome of the dispatch part of report_flagger.process_file
(lines 344-383): the assigned file type, the files_no_qc_report
increment, which error messages were appended, which analyzer ran, and
whether the outer exception handler fired. -/
structure RFDispatchRes where
  fileType : String
  filesNoQc : Nat
  parseErrorMsg : Bool
  invalidEmptyMsg : Bool
  ranBamAnalyzer : Bool
  ranFastqAnalyzer : Bool
  noQcMsg : Bool
  workerExc : Bool
deriving DecidableEq

/-- Shallow embedding of the dispatch logic of report_flagger.process_file:
a present JSON path is always taken first; a JSONDecodeError empties the
data and falls through to the invalid/empty branch; a parsed object is
VCF when it has the VCFVersion field, BAM/CRAM when it is nonempty, and
invalid/empty otherwise; only an absent JSON path consults the zip. -/
def dispatchRF (jsonArt : Option ParsedJson) (zipPresent : Bool) :
    RFDispatchRes :=
  match jsonArt with
  | some .readError => ⟨"", 0, false, false, false, false, false, true⟩
  | some .jsonError => ⟨"", 1, true, true, false, false, false, false⟩
  | some (.obj fields) =>
    if "VCFVersion" ∈ fields then
      ⟨"VCF", 0, false, false, false, false, false, false⟩
    else if fields ≠ [] then
      ⟨"BAM/CRAM", 0, false, false, true, false, false, false⟩
    else ⟨"", 0, false, true, false, false, false, false⟩
  | none =>
    if zipPresent then ⟨"FASTQ", 0, false, false, false, true, false, false⟩
    else ⟨"", 1, false, false, false, false, true, false⟩

inductive RPBranch
  | workerRow
  | vcfRows
  | bamcramRows
  | fastqRows
  | noQcRow
deriving DecidableEq

/-- Shallow embedding of the dispatch logic of report_parser.process_file
(lines 204-217): any exception while loading the JSON reaches the outer
handler (worker_exception row); a parsed summary without the VCFVersion
marker is analyzed as bamcram even when empty. -/
def dispatchRP (jsonArt : Option ParsedJson) (zipPresent : Bool) : RPBranch :=
  match jsonArt with
  | some .readError => .workerRow
  | some .jsonError => .workerRow
  | some (.obj fields) =>
    if "VCFVersion" ∈ fields then .vcfRows else .bamcramRows
  | none => if zipPresent then .fastqRows else .noQcRow

/-- C5, counterexample: a summary JSON that parses successfully to the
empty object has no version marker, yet report_flagger classifies it as
invalid/empty with no file type, not as bamcram as the claim states. -/
theorem c5_dispatch_counterexample :
    (dispatchRF (some (ParsedJson.obj [])) true).fileType ≠ "BAM/CRAM" ∧
    (dispatchRF (some (ParsedJson.obj [])) true).ranBamAnalyzer = false ∧
    (dispatchRF (some (ParsedJson.obj [])) true).invalidEmptyMsg = true := by
  decide

/-- C5 (amended): when the JSON summary is present the dispatch result
never depends on the FastQC archive and never runs the fastq analyzer;
a JSON parse failure records the malformed-report error (counted as a
missing QC report) and stops with no fallback; a parsed object is
classified vcf when the version marker is present, bamcram when it is a
nonempty object, and as an unclassified invalid/empty report when the
object is empty (report_parser instead classifies every unmarked parsed
summary as bamcram and turns a parse failure into its worker_exception
sentinel). -/
theorem c5_dispatch_amended :
    (∀ (o : ParsedJson) (z z2 : Bool),
      dispatchRF (some o) z = dispatchRF (some o) z2 ∧
      (dispatchRF (some o) z).ranFastqAnalyzer = false) ∧
    (∀ z : Bool,
      dispatchRF (some .jsonError) z =
        ⟨"", 1, true, true, false, false, false, false⟩) ∧
    (∀ (fields : List String) (z : Bool),
      dispatchRF (some (.obj fields)) z =
        (if "VCFVersion" ∈ fields then
          ⟨"VCF", 0, false, false, false, false, false, false⟩
        else if fields ≠ [] then
          ⟨"BAM/CRAM", 0, false, false, true, false, false, false⟩
        else ⟨"", 0, false, true, false, false, false, false⟩)) ∧
    (∀ (fields : List String) (z : Bool),
      dispatchRP (some (.obj fields)) z =
        (if "VCFVersion" ∈ fields then .vcfRows else .bamcramRows)) ∧
    (∀ z : Bool, dispatchRP (some .jsonError) z = .workerRow) := by
  refine ⟨?_, fun z => rfl, fun fields z => rfl, fun fields z => rfl,
    fun z => rfl⟩
  intro o z z2
  cases o with
  | readError => exact ⟨rfl, rfl⟩
  | jsonError => exact ⟨rfl, rfl⟩
  | obj fields =>
    refine ⟨rfl, ?_⟩
    by_cases h1 : "VCFVersion" ∈ fields
    · simp [dispatchRF, h1]
    · by_cases h2 : fields = [] <;> simp [dispatchRF, h1, h2]

/-! ### Claim C8: per-identifier fault isolation in report_parser

The environment collects the outcomes of every external operation of
report_parser.process_file: artifact presence, the decryption attempt,
the JSON load (whose `.error` models any exception reaching the outer
handler), and the zip content for the fastq branch (`some none` models a
zip that is present but fails to open or read). -/

structure RPJson where
  vcfMarker : Bool
  summary : BamSummary
  tstv : Option Rat
  avgq : Option Rat
deriving DecidableEq

/-- Shallow embedding of report_parser.analyze_vcf from the parsed
summary onward. -/
def analyzeVcfRP (j : RPJson) : List (String × Rat) :=
  (match j.tstv with
   | some r => [("tstv_ratio", r)]
   | none => []) ++
  (match j.avgq with
   | some q => [("avg_qual", q)]
   | none => [])

/-- The Basic Statistics loop of report_parser.analyze_fastq: scan for a
%GC line (exception when it has no second field or the field is not a
float) or the module end. -/
def basicScanRP : List String → Option (Option Rat × List String)
  | [] => some (none, [])
  | l :: ls =>
    if pyStartsWith l "%GC" then
      match (pySplitTab l).get? 1 with
      | none => none
      | some b =>
        match parseRatStr b with
        | some v => some (some v, ls)
        | none => none
    else if pyStartsWith l ">>END_MODULE" then some (none, ls)
    else basicScanRP ls

/-- The Sequence Duplication Levels loop of report_parser.analyze_fastq. -/
def dupScanRP : List String → Option (Option Rat × List String)
  | [] => some (none, [])
  | l :: ls =>
    if pyStartsWith l "#Total Deduplicated Percentage" then
      match (pySplitTab l).get? 1 with
      | none => none
      | some b =>
        match parseRatStr b with
        | some v => some (some (100 - v), ls)
        | none => none
    else if pyStartsWith l ">>END_MODULE" then some (none, ls)
    else dupScanRP ls

/-- The quality-scores row loop of report_parser.analyze_fastq: unlike
the report_flagger variant, a row that does not split into exactly two
float fields raises (unpacking error), modelled by `none`. -/
def qualRowsRP : List String → Option (List (Rat × Rat) × List String)
  | [] => some ([], [])
  | l :: ls =>
    if pyStartsWith l ">>END_MODULE" then some ([], ls)
    else
      match pySplitTab l with
      | [a, b] =>
        match parseRatStr a, parseRatStr b with
        | some x, some y =>
          match qualRowsRP ls with
          | some (rows, rest) => some ((x, y) :: rows, rest)
          | none => none
        | _, _ => none
      | _ => none

/-- Counts with quality at least 30 (the source comment and code count
reads with mean quality of 30 or more, despite the variable name). -/
def q30Sum (rows : List (Rat × Rat)) : Rat :=
  ((rows.filter (fun qc => decide (30 ≤ qc.1))).map (·.2)).sum

/-- The main loop of report_parser.analyze_fastq over the decoded,
right-stripped lines; `none` models an exception caught by the enclosing
try, which discards all metrics. -/
def fqRPStep : Nat → List String → Option Rat → Option Rat → Option Rat →
    Option (Option Rat × Option Rat × Option Rat)
  | 0, _, d, g, q => some (d, g, q)
  | _, [], d, g, q => some (d, g, q)
  | f + 1, l :: ls, d, g, q =>
    if pyStartsWith l ">>Basic Statistics" then
      match basicScanRP ls with
      | none => none
      | some (gv, rest) =>
        fqRPStep f rest d (match gv with | some v => some v | none => g) q
    else if pyStartsWith l ">>Sequence Duplication Levels" then
      match dupScanRP ls with
      | none => none
      | some (dv, rest) =>
        fqRPStep f rest (match dv with | some v => some v | none => d) g q
    else if pyStartsWith l ">>Per sequence quality scores" then
      match qualRowsRP (skipUntil "#Quality" ls) with
      | none => none
      | some (rows, rest) =>
        let tot := sumCounts rows
        if tot ≠ 0 then fqRPStep f rest d g (some (q30Sum rows / tot * 100))
        else fqRPStep f rest d g q
    else fqRPStep f ls d g q

/-- Shallow embedding of report_parser.analyze_fastq: a zip that fails
to open or read (`none`), or any parse exception, yields the empty row
list, because the appends all happen after the loop inside the same
try. -/
def analyzeFastqRP (zipContent : Option (List String)) : List (String × Rat) :=
  match zipContent with
  | none => []
  | some lines =>
    match fqRPStep (lines.length + 1) lines none none none with
    | none => []
    | some (d, g, q) =>
      (match d with | some v => [("duplicate_reads", v)] | none => []) ++
      (match g with | some v => [("gc_content", v)] | none => []) ++
      (match q with | some v => [("quality_reads", v)] | none => [])

structure RPEnv where
  egaf : String
  includeCrypt : Bool
  statsPresent : Bool
  keyPresent : Bool
  decryptResult : Except Unit (List String)
  json : Option (Except Unit RPJson)
  zipA : Option (Option (List String))

/-- Shallow embedding of report_parser.process_file over the recorded
outcomes of its external operations: the decryption attempt is tried
first and a failure silently degrades to no stats text; a JSON-load
exception becomes the worker_exception sentinel row; no artifact at all
becomes the no_qc sentinel row. -/
def processFileRP (env : RPEnv) : List (String × String × String × Rat) :=
  let decStats : Option (List String) :=
    if env.includeCrypt && env.statsPresent && env.keyPresent then
      match env.decryptResult with
      | .ok s => some s
      | .error _ => none
    else none
  match env.json with
  | some (.error _) => [(env.egaf, "__error__", "worker_exception", -1)]
  | some (.ok j) =>
    if j.vcfMarker then
      (analyzeVcfRP j).map (fun kv => (env.egaf, "vcf", kv.1, kv.2))
    else
      (analyzeBamcramRP j.summary decStats).map
        (fun kv => (env.egaf, "bamcram", kv.1, kv.2))
  | none =>
    match env.zipA with
    | some content =>
      (analyzeFastqRP content).map (fun kv => (env.egaf, "fastq", kv.1, kv.2))
    | none => [(env.egaf, "__error__", "no_qc", -1)]

/-- C8: report_parser.process_file returns a normal row list for every
environment: a JSON-load exception and a fully absent artifact set are
converted into sentinel rows, a decryption failure produces exactly the
rows of a run without the stats artifact, and the remaining cases return
the analyzer rows (the analyzers themselves swallow their exceptions);
no failure escapes the per-identifier unit. -/
theorem c8_process_file_total :
    (∀ env : RPEnv, env.json = some (.error ()) →
      processFileRP env = [(env.egaf, "__error__", "worker_exception", -1)]) ∧
    (∀ env : RPEnv, env.json = none → env.zipA = none →
      processFileRP env = [(env.egaf, "__error__", "no_qc", -1)]) ∧
    (∀ (eg : String) (ic sp kp : Bool) (dr : Except Unit (List String))
        (js : Option (Except Unit RPJson)) (zp : Option (Option (List String))),
      processFileRP ⟨eg, ic, sp, kp, .error (), js, zp⟩ =
        processFileRP ⟨eg, ic, false, false, dr, js, zp⟩) ∧
    (∀ (env : RPEnv) (content : Option (List String)),
      env.json = none → env.zipA = some content →
      processFileRP env =
        (analyzeFastqRP content).map
          (fun kv => (env.egaf, "fastq", kv.1, kv.2))) := by
  refine ⟨?_, ?_, ?_, ?_⟩
  · intro env h
    obtain ⟨eg, ic, sp, kp, dr, js, zp⟩ := env
    dsimp only at h ⊢
    rw [h]
    rfl
  · intro env h hz
    obtain ⟨eg, ic, sp, kp, dr, js, zp⟩ := env
    dsimp only at h hz ⊢
    rw [h]
    unfold processFileRP
    dsimp only
    rw [hz]
  · intro eg ic sp kp dr js zp
    unfold processFileRP
    dsimp only
    have hd : (if ic && sp && kp then
        (match (Except.error () : Except Unit (List String)) with
         | .ok s => some s
         | .error _ => none)
        else (none : Option (List String))) = none := by
      by_cases h : ic && sp && kp <;> simp [h]
    have hd2 : (if ic && false && false then
        (match dr with
         | .ok s => some s
         | .error _ => none)
        else (none : Option (List String))) = none := by
      simp
    rw [hd, hd2]
  · intro env content h hz
    obtain ⟨eg, ic, sp, kp, dr, js, zp⟩ := env
    dsimp only at h hz ⊢
    rw [h]
    unfold processFileRP
    dsimp only
    rw [hz]

/-- C8, witness: a unit where every artifact read fails still produces
the worker_exception sentinel row, and one with no artifacts produces
the no_qc sentinel row. -/
theorem c8_process_file_witness :
    processFileRP ⟨"EGAF1", true, true, true, .error (),
        some (.error ()), none⟩ =
      [("EGAF1", "__error__", "worker_exception", -1)] ∧
    processFileRP ⟨"EGAF2", false, false, false, .error (), none, none⟩ =
      [("EGAF2", "__error__", "no_qc", -1)] :=
  ⟨c8_process_file_total.1 ⟨"EGAF1", true, true, true, .error (),
      some (.error ()), none⟩ rfl,
   c8_process_file_total.2.1 ⟨"EGAF2", false, false, false, .error (),
      none, none⟩ rfl rfl⟩

/-! ### Claim C7: the aggregation engine

The accumulation loops of the batch drivers (error_parser.main lines
654-666, report_flagger.main lines 513-521) add each completed unit's
per-file counts into the run totals, key by key.  A per-file count map
is modelled as a function from (category, flag key) to a count, and the
loop as a left fold of pointwise addition in completion order. -/

def mergeCounts (a b : (String × String) → Nat) : (String × String) → Nat :=
  fun k => a k + b k

/-- Shallow embedding of the warning-count accumulation of the batch
drivers: fold the per-identifier count maps into the zero map. -/
def aggregateCounts (results : List ((String × String) → Nat)) :
    (String × String) → Nat :=
  results.foldl mergeCounts (fun _ => 0)

theorem aggregateCounts_from (l : List ((String × String) → Nat))
    (k : String × String) :
    ∀ init, (l.foldl mergeCounts init) k = init k + (l.map (fun r => r k)).sum := by
  induction l with
  | nil => intro init; simp
  | cons r rs ih =>
    intro init
    rw [List.foldl_cons, ih (mergeCounts init r), List.map_cons, List.sum_cons]
    unfold mergeCounts
    rw [Nat.add_assoc]

theorem aggregateCounts_eq_sum (l : List ((String × String) → Nat))
    (k : String × String) :
    aggregateCounts l k = (l.map (fun r => r k)).sum := by
  unfold aggregateCounts
  rw [aggregateCounts_from l k (fun _ => 0)]
  exact Nat.zero_add _

/-- C7: when each per-identifier count at a key is an indicator (at most
one), the aggregated count at that key is exactly the number of
identifiers that raised the warning; the total is invariant under every
permutation of the completion order; and folding any partition of the
results per worker and then merging the worker totals gives the same
count as folding everything. -/
theorem c7_aggregation :
    (∀ (l : List ((String × String) → Nat)) (k : String × String),
      (∀ r ∈ l, r k ≤ 1) →
      aggregateCounts l k = l.countP (fun r => decide (r k = 1))) ∧
    (∀ l1 l2 : List ((String × String) → Nat), l1.Perm l2 →
      ∀ k, aggregateCounts l1 k = aggregateCounts l2 k) ∧
    (∀ (parts : List (List ((String × String) → Nat))) (k : String × String),
      ((parts.map aggregateCounts).foldl mergeCounts (fun _ => 0)) k =
        aggregateCounts parts.flatten k) := by
  refine ⟨?_, ?_, ?_⟩
  · intro l k h
    rw [aggregateCounts_eq_sum]
    induction l with
    | nil => simp
    | cons r rs ih =>
      rw [List.map_cons, List.sum_cons, List.countP_cons]
      have hr : r k ≤ 1 := h r (List.mem_cons_self r rs)
      have hrest := ih (fun x hx => h x (List.mem_cons_of_mem r hx))
      rcases Nat.le_one_iff_eq_zero_or_eq_one.mp hr with h0 | h1
      · rw [h0, hrest]
        simp
      · rw [h1, hrest]
        simp [Nat.add_comm]
  · intro l1 l2 hperm k
    rw [aggregateCounts_eq_sum, aggregateCounts_eq_sum]
    exact (hperm.map (fun r => r k)).sum_eq
  · intro parts k
    rw [aggregateCounts_from (parts.map aggregateCounts) k (fun _ => 0),
      aggregateCounts_eq_sum]
    induction parts with
    | nil => simp
    | cons p ps ih =>
      rw [List.map_cons, List.map_cons, List.sum_cons, List.flatten_cons,
        List.map_append, List.sum_append, ← ih]
      rw [aggregateCounts_eq_sum]
      rw [Nat.zero_add, Nat.zero_add]

def c7Demo : List ((String × String) → Nat) :=
  [fun k => if k = ("fastq", "sp_not_human") then 1 else 0,
   fun _ => 0,
   fun k => if k = ("fastq", "sp_not_human") then 1 else 0]

/-- C7, witness: three identifiers of which two raise the sp_not_human
warning aggregate to a count of 2 at that key. -/
theorem c7_aggregation_witness :
    aggregateCounts c7Demo ("fastq", "sp_not_human") = 2 := by
  have h := c7_aggregation.1 c7Demo ("fastq", "sp_not_human") (by
    intro r hr
    simp only [c7Demo, List.mem_cons, List.not_mem_nil, or_false] at hr
    rcases hr with rfl | rfl | rfl
    · with_unfolding_all decide
    · with_unfolding_all decide
    · with_unfolding_all decide)
  refine h.trans ?_
  with_unfolding_all decide

end QC
